import Mathlib

/-!
Verification development for the quiz-chain solving service
(`main.py`, `quiz_solver.py`, `quiz_parser.py`, `data_processor.py`,
`answer_submitter.py`).

The Python sources are shallowly embedded: dictionaries become structures,
the orchestrator loop (`QuizSolver.solve_quiz_chain`) becomes a fuel-indexed
recursive function (the fuel mirrors the `attempt < max_attempts` bound, so
the embedding is total by construction), network and rendering effects are
passed in as explicit environment functions, and the regular-expression and
BeautifulSoup text operations used by the sources are modelled by concrete
character-list scanners that follow the respective patterns.
-/

/-! ## Character and string primitives (models of Python `str` / `re` basics) -/

/-- Whitespace test used for the Python regex class `\s` and `str.strip`. -/

def isSpaceChar (c : Char) : Bool :=
  c = ' ' || c = '\t' || c = '\n' || c = '\r' || c = '\x0b' || c = '\x0c'

/-- Lowercase a character list (model of `str.lower`, ASCII letters). -/

def lowerL (xs : List Char) : List Char := xs.map Char.toLower

/-- Case-sensitive test that `pat` begins the list `xs`. -/

def lBegins : List Char → List Char → Bool
  | [], _ => true
  | _ :: _, [] => false
  | p :: ps, x :: xs => p = x && lBegins ps xs

/-- Case-insensitive version of `lBegins` (model of `re.IGNORECASE` literals). -/

def ciBegins (pat xs : List Char) : Bool := lBegins (lowerL pat) (lowerL xs)

/-- Substring test on lists (model of Python `needle in hay`). -/

def hasSubL (needle : List Char) : List Char → Bool
  | [] => lBegins needle []
  | x :: xs => lBegins needle (x :: xs) || hasSubL needle xs

/-- Substring test on strings (model of Python `needle in hay`). -/

def hasSub (hay needle : String) : Bool := hasSubL needle.data hay.data

/-- Strip leading and trailing whitespace from a char list (Python `str.strip`). -/

def stripChars (xs : List Char) : List Char :=
  ((xs.dropWhile isSpaceChar).reverse.dropWhile isSpaceChar).reverse

/-- Python `str.strip` on strings. -/

def pyStrip (s : String) : String := String.mk (stripChars s.data)

/-- Python `str.startswith`. -/

def pyStartsWith (s p : String) : Bool := lBegins p.data s.data

/-- Suffix test on char lists (Python `str.endswith`). -/

def endsWithL (pat xs : List Char) : Bool := lBegins pat.reverse xs.reverse

/-- Drop the last `n` characters (Python slicing `s[:-n]`). -/

def dropLastN (n : Nat) (xs : List Char) : List Char := (xs.reverse.drop n).reverse

/-- Helper for `collapseSpaces`: the boolean records whether the previous
emitted character came from a whitespace run. -/

def collapseSpacesAux : Bool → List Char → List Char
  | _, [] => []
  | prevSpace, c :: cs =>
    if isSpaceChar c then
      if prevSpace then collapseSpacesAux true cs
      else ' ' :: collapseSpacesAux true cs
    else c :: collapseSpacesAux false cs

/-- Model of `re.sub(r'\s+', ' ', text)`: every whitespace run becomes one space. -/

def collapseSpaces (xs : List Char) : List Char := collapseSpacesAux false xs

/-- Split a char list at every occurrence of `sep` (Python `str.split(sep)` for
a one-character separator, and `str.splitlines` for newline). -/

def splitOnChar (sep : Char) : List Char → List (List Char)
  | [] => [[]]
  | c :: cs =>
    if c = sep then [] :: splitOnChar sep cs
    else
      match splitOnChar sep cs with
      | [] => [[c]]
      | h :: t => (c :: h) :: t

/-- Fuel-driven split at a multi-character separator (Python `str.split(sep)`).
The wrapper supplies enough fuel that the fuel case is never reached. -/

def splitOnLitAux (sep : List Char) : Nat → List Char → List (List Char)
  | 0, xs => [xs]
  | _ + 1, [] => [[]]
  | fuel + 1, c :: cs =>
    if sep ≠ [] && lBegins sep (c :: cs) then
      [] :: splitOnLitAux sep fuel (List.drop sep.length (c :: cs))
    else
      match splitOnLitAux sep fuel cs with
      | [] => [[c]]
      | h :: t => (c :: h) :: t

/-- Split a char list at a multi-character separator. -/

def splitOnLit (sep xs : List Char) : List (List Char) :=
  splitOnLitAux sep (xs.length + 1) xs

/-- Digits-to-number conversion (model of Python `int(...)` on a digit string). -/

def digitsToNat : List Char → Nat
  | [] => 0
  | c :: cs => (digitsToNat cs) + (c.toNat - 48) * (10 ^ cs.length)

/-- One decimal digit as a character. -/

def digitChar (n : Nat) : Char := Char.ofNat (48 + n)

/-- Fuel-driven decimal rendering of a natural number. -/

def natReprAux : Nat → Nat → List Char
  | 0, _ => []
  | fuel + 1, n => if n < 10 then [digitChar n] else natReprAux fuel (n / 10) ++ [digitChar (n % 10)]

/-- Decimal rendering of a natural number (model of Python `str(n)`). -/

def natRepr (n : Nat) : String := String.mk (natReprAux (n + 1) n)

/-! ## Shared data model -/

/-- Answer values flowing through the system (Python passes ints and strings). -/

inductive AnswerVal where
  | numI : Int → AnswerVal
  | strV : String → AnswerVal
  deriving DecidableEq

/-- Python truthiness of an optional string (`None` and `""` are falsy). -/

def isTruthy (o : Option String) : Bool :=
  match o with
  | none => false
  | some s => decide (s ≠ "")

/-! ## Embedding of `quiz_solver.py`

`_process_single_quiz` performs I/O (scrape, parse, resolve, submit); the loop
in `solve_quiz_chain` only consumes the resulting dictionary, or replaces it by
a synthetic timeout dictionary when `asyncio.wait_for` times out.  The embedding
therefore abstracts one step of processing as an environment function returning
a `StepOutcome`. -/

/-- Dictionary produced by `_process_single_quiz` (the keys the loop consumes). -/

structure StepResult where
  url : String
  success : Bool
  error : Option String
  answer : Option AnswerVal
  correct : Bool
  next_url : Option String
  deriving DecidableEq

/-- Outcome of awaiting one step under the 30-second deadline: either the step
result, or `asyncio.TimeoutError`. -/

inductive StepOutcome where
  | ok : StepResult → StepOutcome
  | timeout : StepOutcome
  deriving DecidableEq

/-- The synthetic dictionary built in the `except asyncio.TimeoutError` branch
of `solve_quiz_chain` (quiz_solver.py lines 50-56). -/

def timeoutResult (url : String) : StepResult :=
  { url := url, success := false, error := some "Processing timeout (30s)",
    answer := none, correct := false, next_url := none }

/-- The `results` dictionary aggregated by `solve_quiz_chain`. -/

structure ChainResults where
  start_url : String
  completed : Bool
  total_questions : Nat
  correct_answers : Nat
  chain : List StepResult
  deriving DecidableEq

/-- Initial `results` dictionary (quiz_solver.py lines 21-27). -/

def initResults (start_url : String) : ChainResults :=
  { start_url := start_url, completed := false, total_questions := 0,
    correct_answers := 0, chain := [] }

/-- The `while current_url and attempt < max_attempts` loop of
`solve_quiz_chain` (quiz_solver.py lines 31-72).  The fuel argument counts the
remaining iterations allowed by `attempt < max_attempts`; the returned triple is
(`results`, final `visited_urls`, final `attempt`). -/

def solveLoopAux (step : String → StepOutcome) :
    Nat → Option String → List String → Nat → ChainResults →
    ChainResults × List String × Nat
  | 0, _, visited, attempt, acc => (acc, visited, attempt)
  | _ + 1, none, visited, attempt, acc => (acc, visited, attempt)
  | fuel + 1, some url, visited, attempt, acc =>
    if url = "" then (acc, visited, attempt)
    else
      let attempt1 := attempt + 1
      if url ∈ visited then (acc, visited, attempt1)
      else
        let visited1 := url :: visited
        let acc1 := { acc with total_questions := acc.total_questions + 1 }
        let stepRes :=
          match step url with
          | .ok r => r
          | .timeout => timeoutResult url
        let acc2 := { acc1 with
          chain := acc1.chain ++ [stepRes],
          correct_answers := acc1.correct_answers + (if stepRes.correct then 1 else 0) }
        if isTruthy stepRes.next_url then
          solveLoopAux step fuel stepRes.next_url visited1 attempt1 acc2
        else
          ({ acc2 with completed := true }, visited1, attempt1)

/-- One call of `solve_quiz_chain` given the visited set held by the solver
instance; returns the results, the updated visited set, and the final value of
the local `attempt` counter. -/

def solveChainRun (step : String → StepOutcome) (maxAttempts : Nat)
    (visited : List String) (start_url : String) :
    ChainResults × List String × Nat :=
  solveLoopAux step maxAttempts (some start_url) visited 0 (initResults start_url)

/-- The `QuizSolver` instance state: `self.visited_urls` and
`self.max_attempts` (quiz_solver.py lines 12-14). -/

structure QuizSolver where
  visited_urls : List String
  max_attempts : Nat
  deriving DecidableEq

/-- A freshly constructed `QuizSolver()`: empty visited set, `max_attempts = 10`. -/

def QuizSolver.init : QuizSolver := { visited_urls := [], max_attempts := 10 }

/-- Environment abstracting `_process_single_quiz(url, email, secret)`. -/

def Env := String → String → String → StepOutcome

/-- Method call `solver.solve_quiz_chain(start_url, email, secret)`: runs the
loop against the instance's visited set and stores the mutated visited set back
on the instance (the Python set is mutated in place and survives the call). -/

def QuizSolver.solve (solver : QuizSolver) (env : Env)
    (start_url email secret : String) : ChainResults × QuizSolver :=
  let out := solveChainRun (fun u => env u email secret) solver.max_attempts
    solver.visited_urls start_url
  (out.1, { solver with visited_urls := out.2.1 })

/-! ### Exit-cause instrumentation of the chain loop

To state which loop exit produced a run's result, the same loop is replayed
with an explicit exit-cause tag.  `solveLoopAuxT` is `solveLoopAux` with the
branch that ends the run recorded alongside; `loop_tagged_spec` proves that
the instrumented run coincides with the plain one. -/

/-- The four ways the `while` loop of `solve_quiz_chain` can end: the attempt
cap failing the loop test, a falsy `current_url` failing the loop test, the
visited-check `break` (cycle detection, quiz_solver.py lines 34-36), and the
no-next-url completion `break` (quiz_solver.py lines 66-69). -/

inductive ExitCause where
  | capReached
  | noCurrent
  | cycleDetected
  | chainCompleted
  deriving DecidableEq

/-- `solveLoopAux` instrumented with the exit cause of the run; branch for
branch the same function, with the cause of each exit attached. -/

def solveLoopAuxT (step : String → StepOutcome) :
    Nat → Option String → List String → Nat → ChainResults →
    (ChainResults × List String × Nat) × ExitCause
  | 0, _, visited, attempt, acc => ((acc, visited, attempt), ExitCause.capReached)
  | _ + 1, none, visited, attempt, acc => ((acc, visited, attempt), ExitCause.noCurrent)
  | fuel + 1, some url, visited, attempt, acc =>
    if url = "" then ((acc, visited, attempt), ExitCause.noCurrent)
    else
      let attempt1 := attempt + 1
      if url ∈ visited then ((acc, visited, attempt1), ExitCause.cycleDetected)
      else
        let visited1 := url :: visited
        let acc1 := { acc with total_questions := acc.total_questions + 1 }
        let stepRes :=
          match step url with
          | .ok r => r
          | .timeout => timeoutResult url
        let acc2 := { acc1 with
          chain := acc1.chain ++ [stepRes],
          correct_answers := acc1.correct_answers + (if stepRes.correct then 1 else 0) }
        if isTruthy stepRes.next_url then
          solveLoopAuxT step fuel stepRes.next_url visited1 attempt1 acc2
        else
          (({ acc2 with completed := true }, visited1, attempt1), ExitCause.chainCompleted)

/-- One `solve_quiz_chain` call with its exit cause. -/

def solveChainRunT (step : String → StepOutcome) (maxAttempts : Nat)
    (visited : List String) (start_url : String) :
    (ChainResults × List String × Nat) × ExitCause :=
  solveLoopAuxT step maxAttempts (some start_url) visited 0 (initResults start_url)

/-! ## Unfolding lemmas for the chain loop -/

/-- The accumulator after one successfully processed step (visited-add,
`total_questions` bump, chain append, `correct_answers` bump). -/

def accStep (acc : ChainResults) (r : StepResult) : ChainResults :=
  { acc with
    total_questions := acc.total_questions + 1
    chain := acc.chain ++ [r]
    correct_answers := acc.correct_answers + (if r.correct then 1 else 0) }

/-! ## Claim theorems about the chain orchestrator -/

/-- Environment for the shared-visited-set scenario: every URL resolves to a
correct answer with no follow-up URL. -/

def envC1 : Env := fun u _ _ =>
  StepOutcome.ok
    { url := u, success := true, error := none,
      answer := some (AnswerVal.strV "42"), correct := true, next_url := none }

/-- Environment whose every step exceeds the per-step deadline. -/

def envTimeout : String → StepOutcome := fun _ => StepOutcome.timeout

/-- Environment whose every step fails to scrape (unrecoverable fetch error):
`_process_single_quiz` returns its failure dictionary with `next_url = None`. -/

def envFetchError : String → StepOutcome := fun u =>
  StepOutcome.ok
    { url := u, success := false, error := some "Scraping failed: connection error",
      answer := none, correct := false, next_url := none }

/-- Environment whose every step points the chain back at the same URL,
triggering cycle detection on the second iteration. -/

def envSelfLoop : String → StepOutcome := fun u =>
  StepOutcome.ok
    { url := u, success := true, error := none,
      answer := some (AnswerVal.strV "ans"), correct := true, next_url := some u }

/-- Fresh-chain environment for the C6 witness: every page links to a strictly
longer URL, so no URL ever repeats. -/

def freshStepW : String → StepOutcome := fun u =>
  StepOutcome.ok
    { url := u, success := true, error := none,
      answer := some (AnswerVal.strV "a"), correct := false, next_url := some (u ++ "x") }

/-! ## Embedding of `answer_submitter.py`

The HTTP POST itself is abstracted as its outcome: either an exception with a
message (transport error), or a response carrying the status code, the raw
body text, and the result of `response.json()` (which can itself raise). -/

/-- The fields of the parsed JSON body that `submit_answer` reads
(`result.get("correct", False)`, `result.get("reason")`, `result.get("url")`). -/

structure SubmitBody where
  correct : Option Bool
  reason : Option String
  url : Option String
  deriving DecidableEq

/-- An HTTP response as consumed by `submit_answer`. -/

structure HttpResponse where
  status_code : Nat
  text : String
  json : Except String SubmitBody

/-- The dictionary returned by `AnswerSubmitter.submit_answer`. -/

structure SubmissionResult where
  status : String
  correct : Bool
  reason : Option String := none
  next_url : Option String := none
  error : Option String := none
  deriving DecidableEq

/-- `AnswerSubmitter.submit_answer` (answer_submitter.py lines 13-67), given
the outcome of the POST.  A transport error or a `response.json()` failure is
caught by the `except Exception` handler; a non-200 status is mapped to the
error dictionary; a 200 status with parseable body returns the
server-declared fields. -/

def submit_answer (outcome : Except String HttpResponse) : SubmissionResult :=
  match outcome with
  | Except.error e =>
    { status := "error", correct := false,
      error := some ("Submission error: " ++ e) }
  | Except.ok resp =>
    if resp.status_code = 200 then
      match resp.json with
      | Except.ok body =>
        { status := "submitted", correct := body.correct.getD false,
          reason := body.reason, next_url := body.url }
      | Except.error e =>
        { status := "error", correct := false,
          error := some ("Submission error: " ++ e) }
    else
      { status := "error", correct := false,
        error := some ("Submission failed with status " ++ natRepr resp.status_code
          ++ ": " ++ resp.text) }

/-! ## Embedding of the `/quiz-chain` endpoint of `main.py` -/

/-- Request model `QuizChainRequest` (main.py lines 26-30); `max_questions`
is an optional field defaulting to 10. -/

structure QuizChainRequest where
  email : String
  secret : String
  url : String
  max_questions : Option Nat := some 10
  deriving DecidableEq

/-- Response model `QuizChainResponse` (main.py lines 42-45). -/

structure QuizChainResponse where
  status : String
  message : String
  chain_result : Option ChainResults
  deriving DecidableEq

/-- The static credential table `student_secrets` (main.py lines 17-19). -/

def student_secrets : List (String × String) :=
  [("23f2000595@ds.study.iitm.ac.in", "google_baba25")]

/-- The `/quiz-chain` handler `solve_quiz_chain` (main.py lines 121-155):
field-emptiness check (400), credential check (403), then a call of the global
solver's `solve_quiz_chain` with the request's url/email/secret only —
`max_questions` is never read.  HTTP failures are modelled as `Except.error`
carrying the status code. -/

def quiz_chain_endpoint (env : Env) (solver : QuizSolver) (req : QuizChainRequest) :
    Except Nat (QuizChainResponse × QuizSolver) :=
  if pyStrip req.email = "" ∨ pyStrip req.secret = "" ∨ pyStrip req.url = "" then
    Except.error 400
  else
    match student_secrets.lookup req.email with
    | none => Except.error 403
    | some sec =>
      if sec ≠ req.secret then Except.error 403
      else
        let out := solver.solve env req.url req.email req.secret
        Except.ok
          ({ status := "success",
             message := "Quiz chain completed: " ++ natRepr out.1.correct_answers
               ++ "/" ++ natRepr out.1.total_questions ++ " correct",
             chain_result := some out.1 }, out.2)

/-! ## Scanner combinators (models of `re.search` / `re.findall` use sites) -/

/-- Try a position-matcher at every position, left to right, returning the
first match (the scan order of `re.search` and of the first hit of
`re.findall`). -/

def scanFirst {α : Type} (f : List Char → Option α) : List Char → Option α
  | [] => none
  | c :: cs =>
    match f (c :: cs) with
    | some r => some r
    | none => scanFirst f cs

/-- Position matcher for patterns of shape `LIT SKIP* ([0-9]{minLen,})` with a
case-insensitive literal: consume the literal, skip `skip`-characters, and
capture a maximal digit run of length at least `minLen`. -/

def litDigitsAt (lit : List Char) (skip : Char → Bool) (minLen : Nat)
    (xs : List Char) : Option (List Char) :=
  if ciBegins lit xs then
    let rest := (xs.drop lit.length).dropWhile skip
    let ds := rest.takeWhile Char.isDigit
    if minLen ≤ ds.length then some ds else none
  else none

/-- First match of a `LIT SKIP* ([0-9]{minLen,})` pattern in the text. -/

def scanLitDigits (lit : List Char) (skip : Char → Bool) (minLen : Nat)
    (xs : List Char) : Option (List Char) :=
  scanFirst (litDigitsAt lit skip minLen) xs

/-- The regex class `[:\s]`. -/

def colonSpace (c : Char) : Bool := c = ':' || isSpaceChar c

/-! ## Embedding of `data_processor.py` -/

/-- Tag stripper modelling `BeautifulSoup(html).get_text()`: markup between
`<` and `>` is removed and all remaining text (including script bodies, which
`get_text` keeps) is concatenated.  Fuel-driven; the wrapper supplies enough
fuel that the fuel case is never reached. -/

def soupGetTextAux : Nat → List Char → List Char
  | 0, xs => xs
  | _ + 1, [] => []
  | fuel + 1, c :: cs =>
    if c = '<' then soupGetTextAux fuel ((cs.dropWhile (fun d => !(d = '>'))).drop 1)
    else c :: soupGetTextAux fuel cs

/-- Text content of a document (model of `BeautifulSoup(html).get_text()`). -/

def soupGetText (xs : List Char) : List Char := soupGetTextAux (xs.length + 1) xs

/-- `DataProcessor._extract_secret_code` (data_processor.py lines 157-184):
take the page text, strip and whitespace-collapse it, then try the ordered
pattern list `secret code is\s*([0-9]{4,})`, `code is\s*([0-9]{4,})`,
`secret[:\s]*([0-9]{4,})`, `code[:\s]*([0-9]{4,})`, `([0-9]{5,})` (all
IGNORECASE) and return the first captured digit run.  The source's
`match.isdigit() and len(match) >= 4` filter is satisfied by construction
since every capture is a digit run of length at least 4. -/

def extract_secret_code (html : String) : Option String :=
  let text := collapseSpaces (stripChars (soupGetText html.data))
  let hit :=
    scanLitDigits (String.data "secret code is") isSpaceChar 4 text <|>
    scanLitDigits (String.data "code is") isSpaceChar 4 text <|>
    scanLitDigits (String.data "secret") colonSpace 4 text <|>
    scanLitDigits (String.data "code") colonSpace 4 text <|>
    scanLitDigits [] (fun _ => false) 5 text
  hit.map String.mk

/-- Result dictionary of `DataProcessor` task handlers (the keys produced by
the handlers embedded here). -/

structure ProcResult where
  status : String
  error : Option String := none
  answer : Option AnswerVal := none
  method : Option String := none
  notes : Option String := none
  task_type : Option String := none
  scraped_content : Option String := none
  deriving DecidableEq

/-- `DataProcessor._handle_scraping_task` (data_processor.py lines 53-105).
`urljoin` models `urllib.parse.urljoin`; `scrape` models
`_scrape_with_js_detection`, returning the page content (possibly rendered)
or `None` on failure plus the needs-JS flag. -/

def handle_scraping_task (urljoin : String → String → String)
    (scrape : String → Option String × Bool)
    (data_source : String) (base_url : Option String) : ProcResult :=
  if pyStartsWith data_source "/" && !isTruthy base_url then
    { status := "error", error := some "Base URL required for relative scraping" }
  else
    let ds :=
      if pyStartsWith data_source "/" then urljoin (base_url.getD "") data_source
      else data_source
    match (scrape ds).1 with
    | none => { status := "error", error := some "Failed to scrape data source" }
    | some html =>
      if html = "" then
        { status := "error", error := some "Failed to scrape data source" }
      else
        match extract_secret_code html with
        | some code =>
          { status := "processed", task_type := some "scraping",
            scraped_content := some (String.mk (html.data.take 500)),
            answer := some (AnswerVal.strV code),
            method := some "secret_code_extraction",
            notes := some ("Secret code extracted from " ++ ds) }
        | none =>
          { status := "processed", task_type := some "scraping",
            scraped_content := some (String.mk (html.data.take 500)),
            answer := some (AnswerVal.strV (pyStrip html)),
            method := some "content_extraction",
            notes := some ("Content extracted from " ++ ds) }

/-- Rows of a CSV document (model of `list(csv.reader(io.StringIO(content)))`
for unquoted CSV: split into lines, drop the empty trailing line produced by
a final newline, split each line at commas). -/

def csvRows (content : String) : List (List String) :=
  let ls := splitOnChar '\n' content.data
  let ls2 :=
    match ls.getLast? with
    | some [] => ls.dropLast
    | _ => ls
  ls2.map (fun l => if l = [] then [] else (splitOnChar ',' l).map String.mk)

/-- Position matcher for `cutoff:\s*([0-9]+)` (case-sensitive). -/

def cutoffAt (xs : List Char) : Option (List Char) :=
  if lBegins (String.data "cutoff:") xs then
    let rest := (xs.drop 7).dropWhile isSpaceChar
    let ds := rest.takeWhile Char.isDigit
    if 1 ≤ ds.length then some ds else none
  else none

/-- `DataProcessor._process_csv_with_analysis` (data_processor.py lines
196-247).  `fetchText` models `self.client.get` followed by
`raise_for_status` (`none` means the request raised; the exception is logged
and control falls through to the fallback return).  The only question family
handled is `cutoff`; every other question reaches the hardcoded fallback
answer 33644. -/

def process_csv_with_analysis (urljoin : String → String → String)
    (fetchText : String → Option String)
    (csv_url : String) (question : Option String) (base_url : Option String) :
    ProcResult :=
  let url :=
    if pyStartsWith csv_url "/" && isTruthy base_url then
      urljoin (base_url.getD "") csv_url
    else if pyStartsWith csv_url "/" then
      urljoin "https://tds-llm-analysis.s-anand.net" csv_url
    else csv_url
  let fallback : ProcResult :=
    { status := "processed", task_type := some "csv_processing",
      answer := some (AnswerVal.numI 33644), method := some "fallback",
      notes := some "Using known cutoff value as fallback" }
  match fetchText url with
  | none => fallback
  | some content =>
    let rows := csvRows content
    if rows.length < 2 then
      { status := "error", error := some "Empty or invalid CSV file" }
    else
      let ql := String.mk (lowerL (question.getD "").data)
      if hasSub ql "cutoff" then
        match scanFirst cutoffAt (question.getD "").data with
        | some ds =>
          { status := "processed", task_type := some "csv_processing",
            answer := some (AnswerVal.numI (Int.ofNat (digitsToNat ds))),
            method := some "cutoff_extraction",
            notes := some ("Cutoff value " ++ natRepr (digitsToNat ds)
              ++ " extracted from question") }
        | none => fallback
      else fallback

/-! ### The intended CSV summation (from the repository's own fix scripts) -/

/-- Exact decimal fraction (numerator over a power of ten), modelling the
Python float arithmetic of the fix exactly on decimal token values. -/

structure Frac where
  num : Int
  den : Nat
  deriving DecidableEq

/-- Unreduced fraction addition. -/

def Frac.add (a b : Frac) : Frac :=
  { num := a.num * Int.ofNat b.den + b.num * Int.ofNat a.den, den := a.den * b.den }

/-- The zero fraction. -/

def Frac.zero : Frac := { num := 0, den := 1 }

/-- Equality of a fraction with an integer. -/

def Frac.eqInt (a : Frac) (n : Int) : Bool := decide (a.num = n * Int.ofNat a.den)

/-- Value of one numeric token `-?\d+\.?\d*`. -/

def tokFrac (neg : Bool) (ip fp : List Char) : Frac :=
  let v : Int := Int.ofNat (digitsToNat (ip ++ fp))
  { num := if neg then -v else v, den := 10 ^ fp.length }

/-- Left-to-right non-overlapping matches of `-?\d+\.?\d*` in a cell
(model of `re.findall` in the fix script), as fraction values. -/

def numTokensAux : Nat → List Char → List Frac
  | 0, _ => []
  | _ + 1, [] => []
  | fuel + 1, c :: cs =>
    if c = '-' then
      match cs with
      | d :: _ =>
        if d.isDigit then
          let ip := cs.takeWhile Char.isDigit
          let rest1 := cs.drop ip.length
          match rest1 with
          | '.' :: rest2 =>
            let fp := rest2.takeWhile Char.isDigit
            tokFrac true ip fp :: numTokensAux fuel (rest2.drop fp.length)
          | _ => tokFrac true ip [] :: numTokensAux fuel rest1
        else numTokensAux fuel cs
      | [] => []
    else if c.isDigit then
      let ip := (c :: cs).takeWhile Char.isDigit
      let rest1 := (c :: cs).drop ip.length
      match rest1 with
      | '.' :: rest2 =>
        let fp := rest2.takeWhile Char.isDigit
        tokFrac false ip fp :: numTokensAux fuel (rest2.drop fp.length)
      | _ => tokFrac false ip [] :: numTokensAux fuel rest1
    else numTokensAux fuel cs

/-- Sum of the numeric tokens of one CSV cell. -/

def cellSum (cell : String) : Frac :=
  (numTokensAux (cell.data.length + 1) cell.data).foldl Frac.add Frac.zero

/-- The CSV summation the repository's `fix_csv_sum.py` / `apply_csv_fix.py`
prescribe as the replacement for the cutoff/fallback logic: sum every numeric
token of every cell. -/

def csv_sum_fix (rows : List (List String)) : Frac :=
  rows.foldl (fun acc row => row.foldl (fun a cell => a.add (cellSum cell)) acc) Frac.zero

/-! ## Claim theorems about the task resolvers -/

/-- The CSV content named by the spec's numeric-sum test case. -/

def c5csv : String := "a,b\n1,2\n3,4\n"

/-- The document text named by the spec's secret-code test case. -/

def c9doc : String := "... secret code is 4821 ..."

/-! ## Embedding of `quiz_parser.py`

`BeautifulSoup` is modelled by concrete scanners: `soupGetText` for
`get_text()`, `removeScriptStyle` for the script/style `decompose()` loop, and
`extractHrefs` for `find_all('a', href=True)` over tags written
`<a ... href=...>`.  The regex pattern lists are modelled pattern by pattern;
greedy/lazy quantifier behaviour is reproduced except that `\s+` is always
taken greedily without backtracking (the difference shows only on degenerate
inputs such as a verb followed by trailing whitespace at end of text). -/

/-- Scan forward until (case-insensitively) `lit` begins, and drop through it. -/

def chopThroughCi (lit : List Char) : List Char → List Char
  | [] => []
  | c :: cs =>
    if ciBegins lit (c :: cs) then List.drop lit.length (c :: cs)
    else chopThroughCi lit cs

/-- Fuel-driven removal of every `openLit ... closeLit` block (model of
decomposing `script`/`style` elements). -/

def removeBlockF (openLit closeLit : List Char) : Nat → List Char → List Char
  | 0, xs => xs
  | _ + 1, [] => []
  | fuel + 1, c :: cs =>
    if ciBegins openLit (c :: cs) then
      removeBlockF openLit closeLit fuel (chopThroughCi closeLit (List.drop openLit.length (c :: cs)))
    else c :: removeBlockF openLit closeLit fuel cs

/-- The `for script in self.soup(["script", "style"]): script.decompose()`
loop of `_extract_visible_text` (quiz_parser.py lines 57-59). -/

def removeScriptStyle (xs : List Char) : List Char :=
  removeBlockF (String.data "<style") (String.data "</style>") (xs.length + 1)
    (removeBlockF (String.data "<script") (String.data "</script>") (xs.length + 1) xs)

/-- `QuizParser._extract_visible_text` (quiz_parser.py lines 55-67) applied to
the already script/style-stripped document: get the text, split into lines,
strip each, split lines at double spaces into phrases, strip each, and join
the non-empty chunks with single spaces. -/

def extract_visible_text (shtml : List Char) : List Char :=
  let t := soupGetText shtml
  let ls := splitOnChar '\n' t
  let chunks :=
    List.flatten (ls.map (fun l =>
      (splitOnLit (String.data "  ") (stripChars l)).map stripChars))
  List.intercalate (String.data " ") (chunks.filter (fun c => !c.isEmpty))

/-- Terminator `(?:\.|POST|$)` of the question patterns. -/

def qTermAt (xs : List Char) : Bool :=
  match xs with
  | [] => true
  | '.' :: _ => true
  | _ => lBegins (String.data "POST") xs

/-- Number of characters before the first question terminator. -/

def untilQTerm : List Char → Nat
  | [] => 0
  | c :: cs => if qTermAt (c :: cs) then 0 else 1 + untilQTerm cs

/-- Position matcher for `Q\d+\.\s*(.+)` (quiz_parser.py line 73). -/

def qp1At (xs : List Char) : Option (List Char) :=
  match xs with
  | 'Q' :: cs =>
    let ds := cs.takeWhile Char.isDigit
    if ds.isEmpty then none
    else
      match cs.drop ds.length with
      | '.' :: rest =>
        let rest2 := rest.dropWhile isSpaceChar
        if rest2.isEmpty then none else some rest2
      | _ => none
  | _ => none

/-- Position matcher for the verb question patterns
`([Xx]tail\s+.+?)(?:\.|POST|$)` (quiz_parser.py lines 74-77): first letter in
either case, rest of the verb exact, at least one space, then a lazy run of at
least one character up to the first terminator; the capture includes the verb. -/

def capVerbAt (verb : List Char) (xs : List Char) : Option (List Char) :=
  match verb, xs with
  | v :: vrest, c :: cs =>
    if (c = v || c = v.toUpper) && lBegins vrest cs then
      let afterVerb := cs.drop vrest.length
      let sp := afterVerb.takeWhile isSpaceChar
      if sp.isEmpty then none
      else
        let rest := afterVerb.drop sp.length
        match rest with
        | [] => none
        | _ :: rtail => some (c :: (vrest ++ sp ++ rest.take (1 + untilQTerm rtail)))
    else none
  | _, _ => none

/-- Search for the anchored fallback `^(.{20,100}?)(?:\.|POST|$)`
(quiz_parser.py line 78): the smallest capture length between 20 and 100 whose
end sits on a terminator. -/

def qp6Find : Nat → Nat → List Char → Option Nat
  | 0, _, _ => none
  | fuel + 1, n, xs =>
    if 100 < n then none
    else if n ≤ xs.length && qTermAt (xs.drop n) then some n
    else qp6Find fuel (n + 1) xs

/-- The fallback question pattern, anchored at the start of the text. -/

def qp6 (xs : List Char) : Option (List Char) :=
  (qp6Find 81 20 xs).map (fun n => xs.take n)

/-- `QuizParser._extract_question` (quiz_parser.py lines 69-90): ordered
pattern cascade, first match wins, then strip and drop a trailing
`POST`/`Post`. -/

def extract_question (text : List Char) : Option String :=
  let hit :=
    scanFirst qp1At text <|>
    scanFirst (capVerbAt (String.data "scrape")) text <|>
    scanFirst (capVerbAt (String.data "get")) text <|>
    scanFirst (capVerbAt (String.data "calculate")) text <|>
    scanFirst (capVerbAt (String.data "find")) text <|>
    qp6 text
  match hit with
  | none => none
  | some g =>
    let q := stripChars g
    let q2 :=
      if endsWithL (String.data "POST") q || endsWithL (String.data "Post") q then
        stripChars (dropLastN 4 q)
      else q
    some (String.mk q2)

/-- Value of an `href=` attribute at a position inside an `<a>` tag body. -/

def hrefValAt (xs : List Char) : Option (List Char) :=
  if ciBegins (String.data "href=") xs then
    let rest := xs.drop 5
    match rest with
    | c :: r =>
      if c = '"' then some (r.takeWhile (fun d => !(d = '"')))
      else if c = Char.ofNat 39 then some (r.takeWhile (fun d => !(d = Char.ofNat 39)))
      else some (rest.takeWhile (fun d => !(d = ' ' || d = '>')))
    | [] => some []
  else none

/-- All `href` values of `<a ...>` tags, in document order (model of
`find_all('a', href=True)`). -/

def extractHrefsAux : Nat → List Char → List (List Char)
  | 0, _ => []
  | _ + 1, [] => []
  | fuel + 1, c :: cs =>
    if ciBegins (String.data "<a ") (c :: cs) then
      let afterA := cs.drop 1
      let tagBody := afterA.takeWhile (fun d => !(d = '>'))
      let rest := afterA.drop (tagBody.length + 1)
      match scanFirst hrefValAt tagBody with
      | some h => h :: extractHrefsAux fuel rest
      | none => extractHrefsAux fuel rest
    else extractHrefsAux fuel cs

/-- Hrefs of a document. -/

def extractHrefs (xs : List Char) : List (List Char) :=
  extractHrefsAux (xs.length + 1) xs

/-- Tail of the API-URL pattern `https?://[^\s]+api[^\s]+`: the non-space run
must contain `api` at offset at least one and with at least one character
following. -/

def apiInnerLook : List Char → Bool
  | [] => false
  | c :: cs =>
    (lBegins (String.data "api") (c :: cs) && decide (3 < (c :: cs).length)) || apiInnerLook cs

/-- Position matcher for `https?://[^\s]+api[^\s]+` (quiz_parser.py line 103). -/

def apiAt (xs : List Char) : Option (List Char) :=
  let tryAfter := fun (n : Nat) =>
    let run := (xs.drop n).takeWhile (fun c => !isSpaceChar c)
    let inner := match run with | [] => false | _ :: t => apiInnerLook t
    if inner then some (xs.take n ++ run) else none
  if lBegins (String.data "https://") xs then tryAfter 8
  else if lBegins (String.data "http://") xs then tryAfter 7
  else none

/-- Scan with `re.findall` non-overlap semantics and a per-match filter: at a
match, keep it or resume after the matched span; at a miss, advance one
character. -/

def scanFF (f : List Char → Option (List Char × List Char)) (keep : List Char → Bool) :
    Nat → List Char → Option (List Char)
  | 0, _ => none
  | _ + 1, [] => none
  | fuel + 1, c :: cs =>
    match f (c :: cs) with
    | some (v, rest) => if keep v then some v else scanFF f keep fuel rest
    | none => scanFF f keep fuel cs

/-- Continuation of a word-sequence pattern: consume `\s+ word` for every
listed word, then `\s+` and capture a non-space run `([^\s]+)`. -/

def wordsRunCont : List (List Char) → List Char → Option (List Char × List Char)
  | [], xs =>
    let sp := xs.takeWhile isSpaceChar
    if sp.isEmpty then none
    else
      let rest := xs.drop sp.length
      let g := rest.takeWhile (fun c => !isSpaceChar c)
      if g.isEmpty then none else some (g, rest.drop g.length)
  | w :: ws, xs =>
    let sp := xs.takeWhile isSpaceChar
    if sp.isEmpty then none
    else
      let rest := xs.drop sp.length
      if lBegins w rest then wordsRunCont ws (rest.drop w.length) else none

/-- Position matcher for `[Xx]word(\s+word)*\s+([^\s]+)` (the
`Scrape`/`Visit`/`Go to` data-source patterns, quiz_parser.py lines 111-113). -/

def wordsRunAt (w1 : List Char) (ws : List (List Char)) (xs : List Char) :
    Option (List Char × List Char) :=
  match w1, xs with
  | v :: vrest, c :: cs =>
    if (c = v || c = v.toUpper) && lBegins vrest cs then
      wordsRunCont ws (cs.drop vrest.length)
    else none
  | _, _ => none

/-- The regex class `[\w-]`. -/

def wordDash (c : Char) : Bool := c.isAlphanum || c = '_' || c = '-'

/-- The regex class of word characters, slash and dash. -/

def wordSlash (c : Char) : Bool := c.isAlphanum || c = '_' || c = '-' || c = '/'

/-- File extensions of the relative-pattern filter (quiz_parser.py line 123). -/

def relExts : List String := [".csv", ".pdf", ".json", ".txt"]

/-- File extensions of the download-link scan (quiz_parser.py line 98). -/

def hrefExts : List String := [".pdf", ".csv", ".xlsx", ".json", ".txt"]

/-- One of the relative extensions begins here. -/

def relExtHeadAt (ys : List Char) : Bool :=
  lBegins (String.data "csv") ys || lBegins (String.data "pdf") ys ||
  lBegins (String.data "json") ys || lBegins (String.data "txt") ys

/-- Validity of `(?:[\w-]+\.)+(?:csv|pdf|json|txt)` after a leading slash:
repeatedly consume `word.` groups and accept once an extension follows one. -/

def rp4ValidAux : Nat → List Char → Bool
  | 0, _ => false
  | fuel + 1, xs =>
    let w := xs.takeWhile wordDash
    if w.isEmpty then false
    else
      match xs.drop w.length with
      | '.' :: ys => if relExtHeadAt ys then true else rp4ValidAux fuel ys
      | _ => false

/-- Position matcher for `/(?:[\w-]+\.)+(?:csv|pdf|json|txt)\??\S*`
(quiz_parser.py line 114); the whole match extends to the end of the
non-space run. -/

def rp4At (xs : List Char) : Option (List Char × List Char) :=
  match xs with
  | '/' :: rest =>
    if rp4ValidAux (rest.length + 1) rest then
      let run := rest.takeWhile (fun c => !isSpaceChar c)
      some ('/' :: run, rest.drop run.length)
    else none
  | _ => none

/-- Position matcher for the last relative pattern (quiz_parser.py line 115,
a slash followed by a captured run over word characters, slash and dash): the
capture excludes the leading slash; the whole match extends to the end of the
non-space run. -/

def rp5At (xs : List Char) : Option (List Char × List Char) :=
  match xs with
  | '/' :: rest =>
    let g := rest.takeWhile wordSlash
    if g.isEmpty then none
    else
      let run := rest.takeWhile (fun c => !isSpaceChar c)
      some (g, rest.drop run.length)
  | _ => none

/-- Filter applied to each relative-pattern match (quiz_parser.py line 123). -/

def relKeep (v : List Char) : Bool :=
  lBegins (String.data "/") v || relExts.any (fun e => hasSubL e.data (lowerL v))

/-- `QuizParser._extract_data_source` (quiz_parser.py lines 92-126), applied
to the script/style-stripped document: download links by extension, then an
API URL when the text mentions `api`, then the relative-pattern cascade. -/

def extract_data_source (shtml : List Char) : Option String :=
  match (extractHrefs shtml).find?
      (fun h => hrefExts.any (fun e => hasSubL e.data (lowerL h))) with
  | some h => some (String.mk h)
  | none =>
    let text := soupGetText shtml
    let apiHit :=
      if hasSubL (String.data "api") (lowerL text) then scanFirst apiAt text else none
    match apiHit with
    | some m => some (String.mk m)
    | none =>
      let hit :=
        scanFF (wordsRunAt (String.data "scrape") []) relKeep (text.length + 1) text <|>
        scanFF (wordsRunAt (String.data "visit") []) relKeep (text.length + 1) text <|>
        scanFF (wordsRunAt (String.data "go") [String.data "to"]) relKeep (text.length + 1) text <|>
        scanFF rp4At relKeep (text.length + 1) text <|>
        scanFF rp5At relKeep (text.length + 1) text
      hit.map String.mk

/-- Position matcher for `https?://[^\s/]+/submit` (quiz_parser.py lines
135-139, both as a capture group and as a bare pattern). -/

def submitUrlAt (xs : List Char) : Option (List Char) :=
  let tryAfter := fun (n : Nat) =>
    let host := (xs.drop n).takeWhile (fun c => !(isSpaceChar c || c = '/'))
    if host.isEmpty then none
    else if lBegins (String.data "/submit") ((xs.drop n).drop host.length) then
      some (xs.take n ++ host ++ String.data "/submit")
    else none
  if lBegins (String.data "https://") xs then tryAfter 8
  else if lBegins (String.data "http://") xs then tryAfter 7
  else none

/-- Consume `\s+ word` for every listed word, then `\s+`, then hand over to
the tail matcher (used by the `POST this JSON to ...` and `submit to ...`
patterns). -/

def gapWordsThen (after : List Char → Option (List Char)) :
    List (List Char) → List Char → Option (List Char)
  | [], xs =>
    let sp := xs.takeWhile isSpaceChar
    if sp.isEmpty then none else after (xs.drop sp.length)
  | w :: ws, xs =>
    let sp := xs.takeWhile isSpaceChar
    if sp.isEmpty then none
    else
      let rest := xs.drop sp.length
      if lBegins w rest then gapWordsThen after ws (rest.drop w.length) else none

/-- Literal `/submit` as a tail matcher. -/

def slashSubmitAt (xs : List Char) : Option (List Char) :=
  if lBegins (String.data "/submit") xs then some (String.data "/submit") else none

/-- Match a word whose first letter may be either case, rest exact; return the
remaining text. -/

def capLitAt (w : List Char) (xs : List Char) : Option (List Char) :=
  match w, xs with
  | v :: vrest, c :: cs =>
    if (c = v || c = v.toUpper) && lBegins vrest cs then some (cs.drop vrest.length)
    else none
  | _, _ => none

/-- Position matcher for `POST\s+this\s+JSON\s+to\s+(URL)` (quiz_parser.py
line 135). -/

def sp1At (xs : List Char) : Option (List Char) :=
  if lBegins (String.data "POST") xs then
    gapWordsThen submitUrlAt
      [String.data "this", String.data "JSON", String.data "to"] (xs.drop 4)
  else none

/-- Position matcher for `POST\s+this\s+JSON\s+to\s+(/submit)` (line 136). -/

def sp2At (xs : List Char) : Option (List Char) :=
  if lBegins (String.data "POST") xs then
    gapWordsThen slashSubmitAt
      [String.data "this", String.data "JSON", String.data "to"] (xs.drop 4)
  else none

/-- Position matcher for `[Ss]ubmit\s+to\s+(URL)` (line 137). -/

def sp3At (xs : List Char) : Option (List Char) :=
  match capLitAt (String.data "submit") xs with
  | some rest => gapWordsThen submitUrlAt [String.data "to"] rest
  | none => none

/-- Position matcher for `[Ss]ubmit\s+to\s+(/submit)` (line 138). -/

def sp4At (xs : List Char) : Option (List Char) :=
  match capLitAt (String.data "submit") xs with
  | some rest => gapWordsThen slashSubmitAt [String.data "to"] rest
  | none => none

/-- `QuizParser._extract_submit_url` (quiz_parser.py lines 128-153): ordered
pattern cascade over the page text; a match is returned when it starts with
`http` or `/` (every candidate does by construction). -/

def extract_submit_url (shtml : List Char) : Option String :=
  let text := soupGetText shtml
  let hit :=
    scanFirst sp1At text <|> scanFirst sp2At text <|> scanFirst sp3At text <|>
    scanFirst sp4At text <|> scanFirst submitUrlAt text <|> scanFirst slashSubmitAt text
  match hit with
  | none => none
  | some u =>
    if lBegins (String.data "http") u || lBegins (String.data "/") u then
      some (String.mk u)
    else none

/-- Capture `([^\s]+)` with a minimal length (`{4,}` patterns use 4). -/

def nonSpaceRunAtLeast (minLen : Nat) (xs : List Char) : Option (List Char) :=
  let g := xs.takeWhile (fun c => !isSpaceChar c)
  if minLen ≤ g.length then some g else none

/-- Position matcher for `[Ss]ecret\s+[Cc]ode[:\s]*([^\s]+)` (quiz_parser.py
line 158). -/

def scp1At (xs : List Char) : Option (List Char) :=
  match capLitAt (String.data "secret") xs with
  | some rest =>
    let sp := rest.takeWhile isSpaceChar
    if sp.isEmpty then none
    else
      match capLitAt (String.data "code") (rest.drop sp.length) with
      | some rest2 => nonSpaceRunAtLeast 1 (rest2.dropWhile colonSpace)
      | none => none
  | none => none

/-- Position matcher for `[Xx]word[:\s]*([^\s]{4,})` (quiz_parser.py lines
159-161: `code`, `key`, `password`). -/

def scpWordAt (w : List Char) (xs : List Char) : Option (List Char) :=
  match capLitAt w xs with
  | some rest => nonSpaceRunAtLeast 4 (rest.dropWhile colonSpace)
  | none => none

/-- `QuizParser._extract_secret_code_pattern` (quiz_parser.py lines 155-169). -/

def extract_secret_code_pattern (text : List Char) : Option String :=
  let hit :=
    scanFirst scp1At text <|>
    scanFirst (scpWordAt (String.data "code")) text <|>
    scanFirst (scpWordAt (String.data "key")) text <|>
    scanFirst (scpWordAt (String.data "password")) text
  hit.map String.mk

/-- Keyword membership test over the lowercased text. -/

def anyWordIn (tl : String) (ws : List String) : Bool := ws.any (fun w => hasSub tl w)

/-- `QuizParser._determine_task_type` (quiz_parser.py lines 171-188). -/

def determine_task_type (text : List Char) : String :=
  let tl := String.mk (lowerL text)
  if anyWordIn tl ["sum", "total", "calculate", "count"] then "calculation"
  else if anyWordIn tl ["download", "file", "pdf", "csv"] then "data_extraction"
  else if anyWordIn tl ["filter", "sort", "find"] then "data_processing"
  else if anyWordIn tl ["chart", "graph", "visualize"] then "visualization"
  else if anyWordIn tl ["api", "endpoint"] then "api_call"
  else if anyWordIn tl ["scrape", "extract", "get secret"] then "scraping"
  else "general"

/-- `QuizParser._determine_answer_format` (quiz_parser.py lines 190-205). -/

def determine_answer_format (text : List Char) : String :=
  let tl := String.mk (lowerL text)
  if anyWordIn tl ["number", "sum", "total", "count"] then "number"
  else if anyWordIn tl ["string", "text", "code"] then "string"
  else if anyWordIn tl ["true", "false", "boolean"] then "boolean"
  else if anyWordIn tl ["json", "object"] then "json"
  else if anyWordIn tl ["base64", "file", "attachment"] then "base64"
  else "unknown"

/-- The instructions dictionary built by `parse_quiz_instructions`
(quiz_parser.py lines 20-28). -/

structure Instructions where
  question : Option String
  data_source : Option String
  task_type : Option String
  submit_url : Option String
  answer_format : Option String
  extracted_content : Option String
  secret_code_pattern : Option String
  deriving DecidableEq

/-- The `QuizParser` instance state: `self.soup` (quiz_parser.py lines 10-11),
holding the parsed (and script/style-decomposed) document of the last call. -/

structure QuizParserState where
  soup : Option (List Char)

/-- `QuizParser.parse_quiz_instructions` (quiz_parser.py lines 13-53).
`self.soup` is overwritten from `html_content` before any field is computed,
so the previous state is never read; `_extract_visible_text` decomposes the
script/style elements in place, and the later soup-based extractors
(`_extract_data_source`, `_extract_submit_url`) see the decomposed document. -/

def parse_quiz_instructions (_st : QuizParserState) (html : String) :
    QuizParserState × Instructions :=
  let soup1 := removeScriptStyle html.data
  let vt := extract_visible_text soup1
  ({ soup := some soup1 },
   { question := extract_question vt
     data_source := extract_data_source soup1
     task_type := some (determine_task_type vt)
     submit_url := extract_submit_url soup1
     answer_format := some (determine_answer_format vt)
     extracted_content := some (String.mk vt)
     secret_code_pattern := extract_secret_code_pattern vt })

/-! ## Theorems -/

/-! ## List helpers for chain-shape reasoning -/

/-- An element of `l.dropLast` is an element of `l`. -/

theorem mem_of_mem_dropLast {α : Type} {l : List α} {a : α} (h : a ∈ l.dropLast) : a ∈ l :=
  List.dropLast_subset l h

/-- From `getLast? = some a` conclude membership. -/

theorem mem_of_getLastQ_eq {α : Type} {l : List α} {a : α} (h : l.getLast? = some a) : a ∈ l := by
  cases l with
  | nil => simp at h
  | cons x xs =>
    have hne : x :: xs ≠ [] := by simp
    rw [List.getLast?_eq_getLast _ hne] at h
    have h2 : a = (x :: xs).getLast hne := (Option.some_inj.mp h).symm
    rw [h2]
    exact List.getLast_mem hne

/-- If every element of `l.dropLast` satisfies `p` and `s ∈ l` does not,
then `s` is the last element. -/

theorem last_of_mem_not_dropLast {α : Type} {l : List α} {s : α} {p : α → Bool}
    (hmem : s ∈ l) (hdl : ∀ t ∈ l.dropLast, p t = true) (hs : p s = false) :
    l.getLast? = some s := by
  have hne : l ≠ [] := by rintro rfl; simp at hmem
  have hdecomp := List.dropLast_append_getLast hne
  rw [← hdecomp] at hmem
  rcases List.mem_append.1 hmem with h | h
  · have := hdl s h
    rw [this] at hs
    exact absurd hs (by simp)
  · have hq : s = l.getLast hne := by simpa using h
    rw [hq, List.getLast?_eq_getLast _ hne]

/-- Unfolding of one loop iteration when the step returns a result. -/

theorem solveLoop_step_ok (step : String → StepOutcome) (n : Nat) (url : String)
    (visited : List String) (attempt : Nat) (acc : ChainResults) (r : StepResult)
    (h1 : ¬url = "") (h2 : url ∉ visited) (hs : step url = StepOutcome.ok r) :
    solveLoopAux step (n + 1) (some url) visited attempt acc =
      if isTruthy r.next_url then
        solveLoopAux step n r.next_url (url :: visited) (attempt + 1) (accStep acc r)
      else
        ({ accStep acc r with completed := true }, url :: visited, attempt + 1) := by
  simp only [solveLoopAux]
  rw [if_neg h1, if_neg h2]
  simp only [hs, accStep]

/-- Unfolding of one loop iteration when the step times out. -/

theorem solveLoop_step_timeout (step : String → StepOutcome) (n : Nat) (url : String)
    (visited : List String) (attempt : Nat) (acc : ChainResults)
    (h1 : ¬url = "") (h2 : url ∉ visited) (hs : step url = StepOutcome.timeout) :
    solveLoopAux step (n + 1) (some url) visited attempt acc =
      ({ accStep acc (timeoutResult url) with completed := true },
        url :: visited, attempt + 1) := by
  simp only [solveLoopAux]
  rw [if_neg h1, if_neg h2]
  simp only [hs, accStep, timeoutResult, isTruthy]
  rfl

/-- Unfolding of the cycle-detection exit. -/

theorem solveLoop_cycle (step : String → StepOutcome) (n : Nat) (url : String)
    (visited : List String) (attempt : Nat) (acc : ChainResults)
    (h1 : ¬url = "") (h2 : url ∈ visited) :
    solveLoopAux step (n + 1) (some url) visited attempt acc =
      (acc, visited, attempt + 1) := by
  simp only [solveLoopAux]
  rw [if_neg h1, if_pos h2]

/-! ## Structural lemmas about the chain loop -/

/-- Instrumented analogue of `solveLoop_step_ok`. -/

theorem solveLoopT_step_ok (step : String → StepOutcome) (n : Nat) (url : String)
    (visited : List String) (attempt : Nat) (acc : ChainResults) (r : StepResult)
    (h1 : ¬url = "") (h2 : url ∉ visited) (hs : step url = StepOutcome.ok r) :
    solveLoopAuxT step (n + 1) (some url) visited attempt acc =
      if isTruthy r.next_url then
        solveLoopAuxT step n r.next_url (url :: visited) (attempt + 1) (accStep acc r)
      else
        (({ accStep acc r with completed := true }, url :: visited, attempt + 1),
          ExitCause.chainCompleted) := by
  simp only [solveLoopAuxT]
  rw [if_neg h1, if_neg h2]
  simp only [hs, accStep]

/-- Instrumented analogue of `solveLoop_step_timeout`. -/

theorem solveLoopT_step_timeout (step : String → StepOutcome) (n : Nat) (url : String)
    (visited : List String) (attempt : Nat) (acc : ChainResults)
    (h1 : ¬url = "") (h2 : url ∉ visited) (hs : step url = StepOutcome.timeout) :
    solveLoopAuxT step (n + 1) (some url) visited attempt acc =
      (({ accStep acc (timeoutResult url) with completed := true },
        url :: visited, attempt + 1), ExitCause.chainCompleted) := by
  simp only [solveLoopAuxT]
  rw [if_neg h1, if_neg h2]
  simp only [hs, accStep, timeoutResult, isTruthy]
  rfl

/-- Instrumented analogue of `solveLoop_cycle`. -/

theorem solveLoopT_cycle (step : String → StepOutcome) (n : Nat) (url : String)
    (visited : List String) (attempt : Nat) (acc : ChainResults)
    (h1 : ¬url = "") (h2 : url ∈ visited) :
    solveLoopAuxT step (n + 1) (some url) visited attempt acc =
      ((acc, visited, attempt + 1), ExitCause.cycleDetected) := by
  simp only [solveLoopAuxT]
  rw [if_neg h1, if_pos h2]

/-- Exit-cause bookkeeping of one `solve_quiz_chain` loop execution: the
instrumented run coincides with the plain run; the chain and
`total_questions` grow together by some `k`; and the final `attempt` exceeds
the initial one by `k` plus one exactly when the run exited through cycle
detection (that branch bumps `attempt` before `break` without recording a
step).  `attempt` never exceeds the initial value plus the remaining
allowance. -/

theorem loop_tagged_spec (step : String → StepOutcome) :
    ∀ (fuel : Nat) (current : Option String) (visited : List String)
      (attempt : Nat) (acc : ChainResults),
    (solveLoopAuxT step fuel current visited attempt acc).1
      = solveLoopAux step fuel current visited attempt acc ∧
    ∃ k,
      (solveLoopAuxT step fuel current visited attempt acc).1.1.chain.length
        = acc.chain.length + k ∧
      (solveLoopAuxT step fuel current visited attempt acc).1.1.total_questions
        = acc.total_questions + k ∧
      (solveLoopAuxT step fuel current visited attempt acc).1.2.2
        = attempt + k +
          (if (solveLoopAuxT step fuel current visited attempt acc).2
              = ExitCause.cycleDetected then 1 else 0) ∧
      (solveLoopAuxT step fuel current visited attempt acc).1.2.2 ≤ attempt + fuel := by
  intro fuel
  induction fuel with
  | zero =>
    intro current visited attempt acc
    exact ⟨rfl, 0, by simp [solveLoopAuxT], by simp [solveLoopAuxT],
      by simp [solveLoopAuxT], by simp [solveLoopAuxT]⟩
  | succ n ih =>
    intro current visited attempt acc
    match current with
    | none =>
      exact ⟨rfl, 0, by simp [solveLoopAuxT], by simp [solveLoopAuxT],
        by simp [solveLoopAuxT], by simp [solveLoopAuxT]⟩
    | some url =>
      by_cases h1 : url = ""
      · refine ⟨?_, 0, ?_, ?_, ?_, ?_⟩ <;> simp [solveLoopAuxT, solveLoopAux, h1]
      · by_cases h2 : url ∈ visited
        · rw [solveLoopT_cycle step n url visited attempt acc h1 h2,
            solveLoop_cycle step n url visited attempt acc h1 h2]
          exact ⟨rfl, 0, rfl, rfl, by simp, by simp⟩
        · cases hs : step url with
          | ok r =>
            by_cases ht : isTruthy r.next_url
            · simp only [solveLoopT_step_ok step n url visited attempt acc r h1 h2 hs,
                solveLoop_step_ok step n url visited attempt acc r h1 h2 hs, if_pos ht]
              obtain ⟨hA, k, hk1, hk2, hk3, hk4⟩ :=
                ih r.next_url (url :: visited) (attempt + 1) (accStep acc r)
              refine ⟨hA, k + 1, ?_, ?_, ?_, ?_⟩
              · rw [hk1]; simp [accStep]; omega
              · rw [hk2]; simp [accStep]; omega
              · omega
              · omega
            · simp only [solveLoopT_step_ok step n url visited attempt acc r h1 h2 hs,
                solveLoop_step_ok step n url visited attempt acc r h1 h2 hs, if_neg ht]
              refine ⟨by simp, 1, by simp [accStep], by simp [accStep], by simp, by simp⟩
          | timeout =>
            simp only [solveLoopT_step_timeout step n url visited attempt acc h1 h2 hs,
              solveLoop_step_timeout step n url visited attempt acc h1 h2 hs]
            refine ⟨by simp, 1, by simp [accStep], by simp [accStep], by simp, by simp⟩

/-- Shape of the chain built by the loop: provided the accumulator is not yet
completed and every already-recorded step carries a truthy `next_url`, the
final chain has truthy `next_url` on every step but possibly the last, and the
run is `completed` exactly when the final chain ends in a step without a
truthy `next_url`. -/

theorem loop_chain_shape (step : String → StepOutcome) :
    ∀ (fuel : Nat) (current : Option String) (visited : List String)
      (attempt : Nat) (acc : ChainResults),
    acc.completed = false →
    (∀ s ∈ acc.chain, isTruthy s.next_url = true) →
    (∀ s ∈ (solveLoopAux step fuel current visited attempt acc).1.chain.dropLast,
        isTruthy s.next_url = true) ∧
    ((solveLoopAux step fuel current visited attempt acc).1.completed = true ↔
      ∃ s, (solveLoopAux step fuel current visited attempt acc).1.chain.getLast? = some s ∧
        isTruthy s.next_url = false) := by
  intro fuel
  induction fuel with
  | zero =>
    intro current visited attempt acc hc hall
    refine ⟨fun s hm => hall s (mem_of_mem_dropLast hm), ?_⟩
    simp only [solveLoopAux, hc]
    constructor
    · intro h; exact absurd h (by simp)
    · rintro ⟨s, hlast, hfalse⟩
      rw [hall s (mem_of_getLastQ_eq hlast)] at hfalse
      exact absurd hfalse (by simp)
  | succ n ih =>
    intro current visited attempt acc hc hall
    match current with
    | none =>
      refine ⟨fun s hm => hall s (mem_of_mem_dropLast hm), ?_⟩
      simp only [solveLoopAux, hc]
      constructor
      · intro h; exact absurd h (by simp)
      · rintro ⟨s, hlast, hfalse⟩
        rw [hall s (mem_of_getLastQ_eq hlast)] at hfalse
        exact absurd hfalse (by simp)
    | some url =>
      by_cases h1 : url = ""
      · rw [show solveLoopAux step (n + 1) (some url) visited attempt acc
            = (acc, visited, attempt) by simp [solveLoopAux, h1]]
        refine ⟨fun s hm => hall s (mem_of_mem_dropLast hm), ?_⟩
        simp only [hc]
        constructor
        · intro h; exact absurd h (by simp)
        · rintro ⟨s, hlast, hfalse⟩
          rw [hall s (mem_of_getLastQ_eq hlast)] at hfalse
          exact absurd hfalse (by simp)
      · by_cases h2 : url ∈ visited
        · rw [solveLoop_cycle step n url visited attempt acc h1 h2]
          refine ⟨fun s hm => hall s (mem_of_mem_dropLast hm), ?_⟩
          simp only [hc]
          constructor
          · intro h; exact absurd h (by simp)
          · rintro ⟨s, hlast, hfalse⟩
            rw [hall s (mem_of_getLastQ_eq hlast)] at hfalse
            exact absurd hfalse (by simp)
        · have hstepcase : ∀ (r : StepResult),
              (match step url with
                | StepOutcome.ok r0 => r0
                | StepOutcome.timeout => timeoutResult url) = r →
              True := fun _ _ => trivial
          cases hs : step url with
          | ok r =>
            by_cases ht : isTruthy r.next_url
            · rw [solveLoop_step_ok step n url visited attempt acc r h1 h2 hs, if_pos ht]
              refine ih r.next_url (url :: visited) (attempt + 1) (accStep acc r) ?_ ?_
              · simpa [accStep] using hc
              · intro s hm
                rcases (by simpa [accStep] using hm : s ∈ acc.chain ∨ s = r) with h | h
                · exact hall s h
                · rw [h]; exact ht
            · rw [solveLoop_step_ok step n url visited attempt acc r h1 h2 hs, if_neg ht]
              constructor
              · intro s hm
                simp only [accStep] at hm
                rw [List.dropLast_concat] at hm
                exact hall s hm
              · constructor
                · intro _
                  refine ⟨r, ?_, by simpa using ht⟩
                  simp [accStep, List.getLast?_concat]
                · intro _; rfl
          | timeout =>
            rw [solveLoop_step_timeout step n url visited attempt acc h1 h2 hs]
            constructor
            · intro s hm
              simp only [accStep] at hm
              rw [List.dropLast_concat] at hm
              exact hall s hm
            · constructor
              · intro _
                refine ⟨timeoutResult url, ?_, by simp [timeoutResult, isTruthy]⟩
                simp [accStep, List.getLast?_concat]
              · intro _; rfl

/-- Loop behaviour under an environment that always supplies a fresh, truthy
`next_url` along the orbit of `g` from `start`: every iteration consumes one
unit of the attempt allowance, appends one step, and never completes. -/

theorem fresh_loop (step : String → StepOutcome) (g : String → String)
    (start : String) (N : Nat)
    (hstep : ∀ u, ∃ r, step u = StepOutcome.ok r ∧ r.next_url = some (g u))
    (hne : ∀ i, i ≤ N → g^[i] start ≠ "")
    (hinj : ∀ j, j < N → ∀ i, i < j → g^[i] start ≠ g^[j] start) :
    ∀ (fuel : Nat) (k : Nat) (visited : List String) (acc : ChainResults),
    k + fuel = N →
    (∀ u, u ∈ visited ↔ ∃ i, i < k ∧ u = g^[i] start) →
    (solveLoopAux step fuel (some (g^[k] start)) visited k acc).1.completed
      = acc.completed ∧
    (solveLoopAux step fuel (some (g^[k] start)) visited k acc).1.chain.length
      = acc.chain.length + fuel ∧
    (solveLoopAux step fuel (some (g^[k] start)) visited k acc).2.2 = N := by
  intro fuel
  induction fuel with
  | zero =>
    intro k visited acc hk hv
    refine ⟨by simp [solveLoopAux], by simp [solveLoopAux], by simp [solveLoopAux]; omega⟩
  | succ n ih =>
    intro k visited acc hk hv
    have hu_ne : ¬g^[k] start = "" := hne k (by omega)
    have hu_nm : g^[k] start ∉ visited := by
      intro hmem
      obtain ⟨i, hik, hieq⟩ := (hv (g^[k] start)).1 hmem
      exact hinj k (by omega) i hik hieq.symm
    obtain ⟨r, hr, hrn⟩ := hstep (g^[k] start)
    have hnext : r.next_url = some (g^[k + 1] start) := by
      rw [hrn, ← Function.iterate_succ_apply' g k start]
    have htruthy : isTruthy r.next_url = true := by
      rw [hnext]
      simp [isTruthy]
      exact hne (k + 1) (by omega)
    rw [solveLoop_step_ok step n (g^[k] start) visited k acc r hu_ne hu_nm hr,
      if_pos htruthy, hnext]
    have hv2 : ∀ u, u ∈ g^[k] start :: visited ↔ ∃ i, i < k + 1 ∧ u = g^[i] start := by
      intro u
      simp only [List.mem_cons, hv u]
      constructor
      · rintro (rfl | ⟨i, hik, rfl⟩)
        · exact ⟨k, by omega, rfl⟩
        · exact ⟨i, by omega, rfl⟩
      · rintro ⟨i, hik1, rfl⟩
        by_cases hik : i < k
        · exact Or.inr ⟨i, hik, rfl⟩
        · have : i = k := by omega
          rw [this]
          exact Or.inl rfl
    obtain ⟨ha, hb, hc⟩ := ih (k + 1) (g^[k] start :: visited) (accStep acc r) (by omega) hv2
    refine ⟨?_, ?_, hc⟩
    · rw [ha]; simp [accStep]
    · rw [hb]; simp [accStep]; omega

/-- Claim C1: the spec requires every chain run to own an independently-scoped
visited set, so running the same start URL on a fresh solver and on a solver
that already completed a prior run must yield the same result.  The code keeps
`visited_urls` on the long-lived module-level `QuizSolver` instance, so the
second run hits the stale visited entry immediately and returns an empty
aborted result instead of repeating the first run's outcome. -/

theorem C1_shared_visited_divergence :
    ((QuizSolver.init.solve envC1 "http://quiz/1" "e@x" "sec").1.completed = true ∧
     (QuizSolver.init.solve envC1 "http://quiz/1" "e@x" "sec").1.total_questions = 1) ∧
    (((QuizSolver.init.solve envC1 "http://quiz/1" "e@x" "sec").2.solve envC1
        "http://quiz/1" "e@x" "sec").1.completed = false ∧
     ((QuizSolver.init.solve envC1 "http://quiz/1" "e@x" "sec").2.solve envC1
        "http://quiz/1" "e@x" "sec").1.total_questions = 0 ∧
     ((QuizSolver.init.solve envC1 "http://quiz/1" "e@x" "sec").2.solve envC1
        "http://quiz/1" "e@x" "sec").1.chain = []) := by
  decide

/-- Claim C2 counterexample: a run whose first step times out records the
synthetic timeout StepResult (correct=false, next_url=None) but terminates
with `completed = true`, not `completed = false` as the claim states: the
missing next_url sends the loop through its normal completion branch. -/

theorem C2_counterexample_timeout_completed_true :
    (solveChainRun envTimeout 10 [] "http://quiz/t1").1.chain
      = [timeoutResult "http://quiz/t1"] ∧
    (timeoutResult "http://quiz/t1").correct = false ∧
    (timeoutResult "http://quiz/t1").next_url = none ∧
    (solveChainRun envTimeout 10 [] "http://quiz/t1").1.completed = true := by
  decide

/-- Claim C2 (amended): a step that exceeds the deadline is recorded as the
synthetic timeout StepResult with `correct = false` and `next_url = None`;
since it carries no next_url it is necessarily the final step of the run, and
the run terminates with `completed = true` (the no-next-url branch), not
`completed = false`. -/

theorem C2_timeout_step_ends_run (step : String → StepOutcome) (maxA : Nat)
    (visited : List String) (start : String) :
    (∀ u, (timeoutResult u).correct = false ∧ (timeoutResult u).next_url = none ∧
      (timeoutResult u).error = some "Processing timeout (30s)") ∧
    (∀ s ∈ (solveChainRun step maxA visited start).1.chain, s.next_url = none →
      (solveChainRun step maxA visited start).1.chain.getLast? = some s ∧
      (solveChainRun step maxA visited start).1.completed = true) ∧
    (step start = StepOutcome.timeout → start ≠ "" → start ∉ visited → 1 ≤ maxA →
      (solveChainRun step maxA visited start).1.chain = [timeoutResult start] ∧
      (solveChainRun step maxA visited start).1.completed = true) := by
  obtain ⟨hshape, hiff⟩ := loop_chain_shape step maxA (some start) visited 0
    (initResults start) rfl (by simp [initResults])
  refine ⟨fun u => ⟨rfl, rfl, rfl⟩, ?_, ?_⟩
  · intro s hmem hnone
    have hfalse : isTruthy s.next_url = false := by rw [hnone]; rfl
    have hlast : (solveChainRun step maxA visited start).1.chain.getLast? = some s :=
      last_of_mem_not_dropLast hmem hshape hfalse
    exact ⟨hlast, hiff.2 ⟨s, hlast, hfalse⟩⟩
  · intro hto hne hnm hpos
    obtain ⟨m, rfl⟩ : ∃ m, maxA = m + 1 := ⟨maxA - 1, by omega⟩
    rw [show solveChainRun step (m + 1) visited start
        = ({ accStep (initResults start) (timeoutResult start) with completed := true },
          start :: visited, 0 + 1) from
      solveLoop_step_timeout step m start visited 0 (initResults start) hne hnm hto]
    exact ⟨by simp [accStep, initResults], rfl⟩

/-- Claim C2 witness: concrete instance of the amended theorem. -/

theorem C2_timeout_witness :
    (solveChainRun envTimeout 10 [] "u").1.chain = [timeoutResult "u"] ∧
    (solveChainRun envTimeout 10 [] "u").1.completed = true :=
  (C2_timeout_step_ends_run envTimeout 10 [] "u").2.2 rfl (by decide) (by decide) (by decide)

/-- Claim C3 counterexample: a run that terminates on an unrecoverable fetch
error at its first step ends with `completed = true`, not `completed = false`
as the claim states: the failed step yields `next_url = None`, which the loop
treats as normal chain completion. -/

theorem C3_counterexample_fetch_error_completed_true :
    ((solveChainRun envFetchError 10 [] "http://quiz/f1").1.chain.map StepResult.error)
      = [some "Scraping failed: connection error"] ∧
    ((solveChainRun envFetchError 10 [] "http://quiz/f1").1.chain.map StepResult.success)
      = [false] ∧
    (solveChainRun envFetchError 10 [] "http://quiz/f1").1.completed = true := by
  decide

/-- Claim C3 (amended): a chain run is `completed = true` iff it terminated
because its last executed step yielded no truthy next_url; cycle detection and
the attempt cap leave `completed = false` (their last step, if any, carried a
truthy next_url), but steps that failed with fetch errors or timeouts also
yield no next_url and hence terminate the run with `completed = true`. -/

theorem C3_completed_iff_last_no_next (step : String → StepOutcome) (maxA : Nat)
    (visited : List String) (start : String) :
    ((solveChainRun step maxA visited start).1.completed = true ↔
      ∃ s, (solveChainRun step maxA visited start).1.chain.getLast? = some s ∧
        isTruthy s.next_url = false) ∧
    (∀ s ∈ (solveChainRun step maxA visited start).1.chain.dropLast,
      isTruthy s.next_url = true) := by
  obtain ⟨hshape, hiff⟩ := loop_chain_shape step maxA (some start) visited 0
    (initResults start) rfl (by simp [initResults])
  exact ⟨hiff, hshape⟩

/-- Claim C4 counterexample: when the run terminates through cycle detection,
`attempt` was incremented before the `break` without a step being recorded, so
the final attempt counter is 2 while the chain holds 1 step: the claimed
invariant `attempts == len(chain) == total_questions` fails. -/

theorem C4_counterexample_cycle_attempt_count :
    (solveChainRun envSelfLoop 10 [] "http://quiz/c1").2.2 = 2 ∧
    (solveChainRun envSelfLoop 10 [] "http://quiz/c1").1.chain.length = 1 ∧
    (solveChainRun envSelfLoop 10 [] "http://quiz/c1").1.total_questions = 1 := by
  decide

/-- Claim C4 (amended): at termination `total_questions` always equals
`len(chain)`, and the attempt counter never exceeds `max_attempts`; the
counter equals `len(chain) + 1` exactly when the run terminated through cycle
detection (the loop bumps `attempt` before the cycle `break` without
recording a step), and equals `len(chain)` on every other exit.  The exit
cause is read off the instrumented loop `solveChainRunT`, whose run the first
conjunct proves identical to `solveChainRun`. -/

theorem C4_attempts_chain_relation (step : String → StepOutcome) (maxA : Nat)
    (visited : List String) (start : String) :
    (solveChainRunT step maxA visited start).1 = solveChainRun step maxA visited start ∧
    (solveChainRun step maxA visited start).1.total_questions
      = (solveChainRun step maxA visited start).1.chain.length ∧
    (solveChainRun step maxA visited start).2.2 ≤ maxA ∧
    ((solveChainRun step maxA visited start).2.2
        = (solveChainRun step maxA visited start).1.chain.length + 1 ↔
      (solveChainRunT step maxA visited start).2 = ExitCause.cycleDetected) ∧
    ((solveChainRunT step maxA visited start).2 ≠ ExitCause.cycleDetected →
      (solveChainRun step maxA visited start).2.2
        = (solveChainRun step maxA visited start).1.chain.length) := by
  have hrw : solveChainRun step maxA visited start
      = solveLoopAux step maxA (some start) visited 0 (initResults start) := rfl
  have hrwT : solveChainRunT step maxA visited start
      = solveLoopAuxT step maxA (some start) visited 0 (initResults start) := rfl
  obtain ⟨hA, k, h1, h2, h3, h4⟩ := loop_tagged_spec step maxA (some start) visited 0
    (initResults start)
  rw [hrw, hrwT, ← hA]
  have e1 : (initResults start).chain.length = 0 := rfl
  have e2 : (initResults start).total_questions = 0 := rfl
  rw [e1] at h1
  rw [e2] at h2
  by_cases htag : (solveLoopAuxT step maxA (some start) visited 0 (initResults start)).2
      = ExitCause.cycleDetected
  · simp [htag] at h3
    refine ⟨rfl, by omega, by omega, ?_, ?_⟩
    · exact ⟨fun _ => htag, fun _ => by omega⟩
    · intro hne
      exact absurd htag hne
  · simp [htag] at h3
    refine ⟨rfl, by omega, by omega, ?_, fun _ => by omega⟩
    constructor
    · intro hplus
      exfalso
      omega
    · intro h
      exact absurd h htag

/-- Claim C4 witness: the amended theorem applied at a concrete run whose
exit is not cycle detection (its single step times out and completes the
run), discharging the non-cycle hypothesis and yielding the equality of the
attempt counter with the chain length. -/

theorem C4_attempts_witness :
    (solveChainRun envTimeout 10 [] "http://quiz/w4").2.2
      = (solveChainRun envTimeout 10 [] "http://quiz/w4").1.chain.length :=
  (C4_attempts_chain_relation envTimeout 10 [] "http://quiz/w4").2.2.2.2 (by decide)

/-- Claim C6: a chain whose pages always supply a fresh (unvisited, non-empty)
next_url never completes; the run performs exactly `max_attempts` steps and
the attempt counter stops exactly at the cap.  Freshness is expressed through
a successor function `g` whose orbit from the start URL is non-empty-valued
and injective over the first `max_attempts` iterates. -/

theorem C6_fresh_chain_stops_at_cap (step : String → StepOutcome)
    (g : String → String) (start : String) (maxA : Nat)
    (hstep : ∀ u, ∃ r, step u = StepOutcome.ok r ∧ r.next_url = some (g u))
    (hne : ∀ i, i ≤ maxA → g^[i] start ≠ "")
    (hinj : ∀ j, j < maxA → ∀ i, i < j → g^[i] start ≠ g^[j] start) :
    (solveChainRun step maxA [] start).1.completed = false ∧
    (solveChainRun step maxA [] start).1.chain.length = maxA ∧
    (solveChainRun step maxA [] start).2.2 = maxA := by
  have h := fresh_loop step g start maxA hstep hne hinj maxA 0 [] (initResults start)
    (by omega) (by simp)
  have h0 : g^[0] start = start := rfl
  rw [h0] at h
  obtain ⟨ha, hb, hc⟩ := h
  refine ⟨ha, ?_, hc⟩
  have hb2 : (solveLoopAux step maxA (some start) [] 0 (initResults start)).1.chain.length
      = maxA := by simpa [initResults] using hb
  exact hb2

/-- Claim C6 witness: the fresh-chain theorem at a concrete environment. -/

theorem C6_fresh_chain_witness :
    (solveChainRun freshStepW 10 [] "a").1.completed = false ∧
    (solveChainRun freshStepW 10 [] "a").1.chain.length = 10 ∧
    (solveChainRun freshStepW 10 [] "a").2.2 = 10 :=
  C6_fresh_chain_stops_at_cap freshStepW (fun s => s ++ "x") "a" 10
    (fun u => ⟨_, rfl, rfl⟩) (by decide) (by decide)

/-- Claim C7 counterexample: on a non-success HTTP status the verdict carries
`correct = false`, but the raw error text is stored under the `error` key; the
`reason` field is absent (`None`), so the claim's "a reason field carrying the
raw error text" is false. -/

theorem C7_counterexample_reason_is_none :
    (submit_answer (Except.ok
      { status_code := 404, text := "Not Found",
        json := Except.error "not json" })).correct = false ∧
    (submit_answer (Except.ok
      { status_code := 404, text := "Not Found",
        json := Except.error "not json" })).reason = none ∧
    (submit_answer (Except.ok
      { status_code := 404, text := "Not Found",
        json := Except.error "not json" })).error
      = some ("Submission failed with status " ++ natRepr 404 ++ ": Not Found") := by
  refine ⟨rfl, rfl, rfl⟩

/-- Claim C7 (amended): the submit operation never raises past its boundary
(it is a total function of the POST outcome); a non-success HTTP status and a
transport error both yield a verdict with `correct = false` whose `error`
field — not `reason` — carries the raw error text; a success (200) status
with a parseable body yields the server-declared correctness, rejection
reason, and next URL when present. -/

theorem C7_submit_verdict_branches :
    (∀ st txt js, st ≠ 200 →
      submit_answer (Except.ok { status_code := st, text := txt, json := js })
        = { status := "error", correct := false, reason := none, next_url := none,
            error := some ("Submission failed with status " ++ natRepr st
              ++ ": " ++ txt) }) ∧
    (∀ e, submit_answer (Except.error e)
        = { status := "error", correct := false, reason := none, next_url := none,
            error := some ("Submission error: " ++ e) }) ∧
    (∀ txt body, submit_answer (Except.ok
        { status_code := 200, text := txt, json := Except.ok body })
        = { status := "submitted", correct := body.correct.getD false,
            reason := body.reason, next_url := body.url, error := none }) ∧
    (∀ txt e, submit_answer (Except.ok
        { status_code := 200, text := txt, json := Except.error e })
        = { status := "error", correct := false, reason := none, next_url := none,
            error := some ("Submission error: " ++ e) }) := by
  refine ⟨?_, fun e => rfl, fun txt body => rfl, fun txt e => rfl⟩
  intro st txt js hst
  simp only [submit_answer, if_neg hst]

/-- Claim C7 witness: the amended theorem applied at a concrete non-success
response. -/

theorem C7_submit_witness :
    submit_answer (Except.ok
      { status_code := 500, text := "boom", json := Except.error "not json" })
      = { status := "error", correct := false, reason := none, next_url := none,
          error := some ("Submission failed with status " ++ natRepr 500
            ++ ": " ++ "boom") } :=
  C7_submit_verdict_branches.1 500 "boom" (Except.error "not json") (by decide)

/-- Claim C10: `max_questions` has no effect: two `/quiz-chain` requests that
agree on email, secret and url (and differ arbitrarily in `max_questions`)
produce identical endpoint behaviour, and the step cap actually used is the
solver's fixed `max_attempts`, which is 10 on a fresh `QuizSolver()`. -/

theorem C10_max_questions_ignored (env : Env) (solver : QuizSolver)
    (r1 r2 : QuizChainRequest) (he : r1.email = r2.email)
    (hs : r1.secret = r2.secret) (hu : r1.url = r2.url) :
    quiz_chain_endpoint env solver r1 = quiz_chain_endpoint env solver r2 ∧
    QuizSolver.init.max_attempts = 10 := by
  refine ⟨?_, rfl⟩
  obtain ⟨e1, s1, u1, m1⟩ := r1
  obtain ⟨e2, s2, u2, m2⟩ := r2
  simp only at he hs hu
  rw [he, hs, hu]
  rfl

/-- Claim C10 witness: two concrete requests that differ only in
`max_questions` (3 versus none) are handled identically. -/

theorem C10_max_questions_witness :
    quiz_chain_endpoint envC1 QuizSolver.init
      { email := "23f2000595@ds.study.iitm.ac.in", secret := "google_baba25",
        url := "http://quiz/w", max_questions := some 3 }
      = quiz_chain_endpoint envC1 QuizSolver.init
      { email := "23f2000595@ds.study.iitm.ac.in", secret := "google_baba25",
        url := "http://quiz/w", max_questions := none } ∧
    QuizSolver.init.max_attempts = 10 :=
  C10_max_questions_ignored envC1 QuizSolver.init _ _ rfl rfl rfl

/-- Claim C5: for the CSV `"a,b\n1,2\n3,4\n"` and a summation question, the
CSV resolution path of the code does not compute the sum 10: it reaches the
hardcoded fallback and answers 33644.  (The repository's own
`fix_csv_sum.py` / `apply_csv_fix.py` prescribe replacing this logic with the
actual summation.) -/

theorem C5_csv_resolver_returns_fallback :
    (process_csv_with_analysis (fun b r => b ++ r) (fun _ => some c5csv)
      "http://x/data.csv" (some "What is the sum of all values in the CSV?")
      none).answer = some (AnswerVal.numI 33644) ∧
    (process_csv_with_analysis (fun b r => b ++ r) (fun _ => some c5csv)
      "http://x/data.csv" (some "What is the sum of all values in the CSV?")
      none).method = some "fallback" ∧
    (csvRows c5csv).length = 3 := by
  decide

/-- The summation prescribed by the repository's fix scripts does yield 10 on
the spec's CSV, confirming that 10 is the intended answer the shipped code
fails to produce. -/

theorem csv_fix_sum_yields_ten :
    Frac.eqInt (csv_sum_fix (csvRows c5csv)) 10 = true := by
  decide

/-- Claim C9: on a fetched document whose visible text contains
`... secret code is 4821 ...`, secret-code extraction returns exactly "4821",
and the scraping-task pipeline consequently answers "4821" via the
secret-code-extraction method. -/

theorem C9_secret_code_pipeline :
    extract_secret_code c9doc = some "4821" ∧
    (handle_scraping_task (fun b r => b ++ r) (fun _ => (some c9doc, false))
      "http://site/page" none).answer = some (AnswerVal.strV "4821") ∧
    (handle_scraping_task (fun b r => b ++ r) (fun _ => (some c9doc, false))
      "http://site/page" none).method = some "secret_code_extraction" := by
  decide

/-- Claim C8: instruction extraction is a pure, deterministic function of the
document body: the produced Task is independent of the parser's prior state,
and calling extraction twice on byte-identical input yields identical Task
values (all fields equal). -/

theorem C8_extraction_pure (st1 st2 : QuizParserState) (body : String) :
    (parse_quiz_instructions st1 body).2 = (parse_quiz_instructions st2 body).2 ∧
    (parse_quiz_instructions (parse_quiz_instructions st1 body).1 body).2
      = (parse_quiz_instructions st1 body).2 :=
  ⟨rfl, rfl⟩
